import Mathlib

/-!
Verification development for the `ersa` GraphQL-over-HTTP request handler
(`src/createHandler.js` and `src/parseParams.js`).

The JavaScript code is shallowly embedded: JS runtime values that the handler
inspects are modelled by `JValue` (with JS truthiness), thrown values are
modelled with `Except JValue`, and platform / external-engine capabilities
(`JSON.parse`, `URLSearchParams`, the GraphQL parse/validate/execute/formatError
strategies) are passed in as explicit function parameters, since they are not
part of this repository.
-/

namespace Ersa

/-- JavaScript runtime values, as far as the handler inspects them: the
`undefined` / `null` distinction, primitives, objects as ordered field lists
and arrays. -/
inductive JValue where
  | undefined : JValue
  | null : JValue
  | bool : Bool → JValue
  | num : Int → JValue
  | str : String → JValue
  | obj : List (String × JValue) → JValue
  | arr : List JValue → JValue

/-- JS truthiness of a value (`if (v)` / `v ? a : b`). -/
def JValue.truthy : JValue → Bool
  | .undefined => false
  | .null => false
  | .bool b => b
  | .num n => n != 0
  | .str s => s != ""
  | .obj _ => true
  | .arr _ => true

/-- First binding of a key in an ordered field list (JS own-property lookup;
also used for header maps). -/
def lookupField : List (String × JValue) → String → Option JValue
  | [], _ => none
  | (k, v) :: rest, key => if k = key then some v else lookupField rest key

/-- A TypeError value as thrown by the JS runtime. -/
def typeError (msg : String) : JValue :=
  .obj [("name", .str "TypeError"), ("message", .str msg)]

/-- The TypeError raised by reading a property of `null` or `undefined`. -/
def typeErrorRead (base key : String) : JValue :=
  typeError ("Cannot read properties of " ++ base ++ ", reading " ++ key)

/-- JS property access `v.key` on a value known not to be nullish: own
property, or `undefined` when absent or when the receiver is a primitive. -/
def JValue.getProp : JValue → String → JValue
  | .obj fields, key =>
    match lookupField fields key with
    | some v => v
    | none => .undefined
  | _, _ => .undefined

/-- JS property access `v.key` including the TypeError on nullish receivers. -/
def JValue.getPropE : JValue → String → Except JValue JValue
  | .undefined, key => .error (typeErrorRead "undefined" key)
  | .null, key => .error (typeErrorRead "null" key)
  | v, key => .ok (v.getProp key)

/-- JS short-circuit `a || b`. -/
def jsOr (a b : JValue) : JValue := if a.truthy then a else b

instance instJValueDecEqUndefined (v : JValue) : Decidable (v = JValue.undefined) :=
  match v with
  | .undefined => .isTrue rfl
  | .null => .isFalse (fun h => JValue.noConfusion h)
  | .bool _ => .isFalse (fun h => JValue.noConfusion h)
  | .num _ => .isFalse (fun h => JValue.noConfusion h)
  | .str _ => .isFalse (fun h => JValue.noConfusion h)
  | .obj _ => .isFalse (fun h => JValue.noConfusion h)
  | .arr _ => .isFalse (fun h => JValue.noConfusion h)

/-- The value of `URLSearchParams.get(key)` (`null` becomes `none`). -/
def spGet : List (String × String) → String → Option String
  | [], _ => none
  | (k, v) :: rest, key => if k = key then some v else spGet rest key

/-- Lift a `URLSearchParams.get` result into a JS value. -/
def jvOfOptStr : Option String → JValue
  | some s => .str s
  | none => .null

/-- Whether the character list starts with the given pattern. -/
def charsHasPre : List Char → List Char → Bool
  | _, [] => true
  | [], _ :: _ => false
  | c :: cs, d :: ds => c == d && charsHasPre cs ds

/-- Whether the pattern occurs somewhere in the character list. -/
def charsIncludes : List Char → List Char → Bool
  | [], needle => charsHasPre [] needle
  | c :: rest, needle => charsHasPre (c :: rest) needle || charsIncludes rest needle

/-- JS `String.prototype.includes`: substring containment. -/
def strIncludes (s sub : String) : Bool := charsIncludes s.data sub.data

/-- An incoming HTTP request, as far as the handler reads it: method, the
query-string pairs of its URL, the value of `headers.get("Content-Type")`
(`none` when the header is absent), and the raw body text. -/
structure Request where
  method : String
  searchParams : List (String × String)
  contentType : Option String
  body : String
deriving Repr, DecidableEq

/-- Host platform capabilities used by `parseParams`: `JSON.parse` (which may
throw a SyntaxError value) and `new URLSearchParams(text)` for form bodies.
Both are external to the repository. -/
structure HostEnv where
  jsonParse : String → Except JValue JValue
  parseQS : String → List (String × String)

/-- The `{query, variables, operationName}` object produced by `parseParams`. -/
structure ParsedParams where
  query : JValue
  «variables» : JValue
  operationName : JValue

/-- The body-supplied `variables` handling in the merge step of `parseParams`:
`typeof fromBody.variables === "string" ? JSON.parse(fromBody.variables) :
fromBody.variables`. -/
def bodyVariables (env : HostEnv) (fromBody : JValue) : Except JValue JValue := do
  let bv ← fromBody.getPropE "variables"
  match bv with
  | .str t => env.jsonParse t
  | v => pure v

/-- The merged `variables` expression of `parseParams`:
`fromURL.get("variables") ? JSON.parse(fromURL.get("variables")) : typeof
fromBody.variables === "string" ? JSON.parse(fromBody.variables) :
fromBody.variables`. -/
def mergedVariables (env : HostEnv) (fromURL : List (String × String)) (fromBody : JValue) :
    Except JValue JValue :=
  match spGet fromURL "variables" with
  | some s => if s ≠ "" then env.jsonParse s else bodyVariables env fromBody
  | none => bodyVariables env fromBody

/-- The return-object construction of `parseParams`: field-by-field merge of
the URL search params over the body contribution, using JS `||` (and the
conditional re-decoding of `variables`). -/
def mergeStep (env : HostEnv) (fromURL : List (String × String)) (fromBody : JValue) :
    Except JValue ParsedParams := do
  let bq ← fromBody.getPropE "query"
  let query := jsOr (jvOfOptStr (spGet fromURL "query")) bq
  let «variables» ← mergedVariables env fromURL fromBody
  let bo ← fromBody.getPropE "operationName"
  let operationName := jsOr (jvOfOptStr (spGet fromURL "operationName")) bo
  pure ⟨query, «variables», operationName⟩

/-- The form-urlencoded body contribution of `parseParams`:
`bodySearch.get("variables") && JSON.parse(bodySearch.get("variables"))`
keeps a falsy lookup result unchanged. -/
def formBody (env : HostEnv) (bodyText : String) : Except JValue JValue := do
  let bodySearch := env.parseQS bodyText
  let «variables» ←
    match spGet bodySearch "variables" with
    | some s => if s ≠ "" then env.jsonParse s else pure (JValue.str s)
    | none => pure JValue.null
  pure (.obj [("query", jvOfOptStr (spGet bodySearch "query")),
              ("variables", «variables»),
              ("operationName", jvOfOptStr (spGet bodySearch "operationName"))])

/-- The `{status: 400, error: parseError}` wrapper applied by the catch clause
of `parseParams` to any error raised while resolving parameters. -/
def tagParseErr (e : JValue) : JValue := .obj [("status", .num 400), ("error", e)]

/-- Body of `parseParams`, with the second component recording whether the
request body stream was consumed (`request.json()` / `request.text()`).
On a POST, the content-type dispatch reads `headers.get("Content-Type")` and
calls `.includes` on it, which throws a TypeError when the header is absent
(`null`); every raised error is wrapped by `tagParseErr`. -/
def parseParamsRaw (env : HostEnv) (request : Request) :
    Except JValue ParsedParams × Bool :=
  if request.method == "POST" then
    match request.contentType with
    | none => (.error (tagParseErr (typeErrorRead "null" "includes")), false)
    | some ct =>
      if strIncludes ct "application/json" then
        match env.jsonParse request.body with
        | .error e => (.error (tagParseErr e), true)
        | .ok fromBody =>
          ((mergeStep env request.searchParams fromBody).mapError tagParseErr, true)
      else if strIncludes ct "application/x-www-form-urlencoded" then
        (((formBody env request.body).bind
            (fun fb => mergeStep env request.searchParams fb)).mapError tagParseErr, true)
      else if strIncludes ct "application/graphql" then
        ((mergeStep env request.searchParams
            (.obj [("query", .str request.body)])).mapError tagParseErr, true)
      else
        ((mergeStep env request.searchParams (.obj [])).mapError tagParseErr, false)
  else ((mergeStep env request.searchParams (.obj [])).mapError tagParseErr, false)

/-- `parseParams(request)`: the resolved parameters or the tagged 400 error. -/
def parseParams (env : HostEnv) (request : Request) : Except JValue ParsedParams :=
  (parseParamsRaw env request).1

/-- Whether `parseParams` consumed the request body stream. -/
def bodyConsumed (env : HostEnv) (request : Request) : Bool :=
  (parseParamsRaw env request).2

/-- An operation definition of a parsed GraphQL document: optional name and
operation kind string ("query", "mutation" or "subscription"). -/
structure OperationInfo where
  name : Option String
  operation : String
deriving Repr, DecidableEq

/-- A top-level definition of a parsed document: an operation definition or
anything else (fragment definitions and the like). -/
inductive DocDefinition where
  | op : OperationInfo → DocDefinition
  | other : DocDefinition
deriving Repr, DecidableEq

/-- A parsed GraphQL document, reduced to the structure the handler inspects. -/
abbrev GQLDocument := List DocDefinition

/-- The operation definitions of a document, in order. -/
def documentOperations : GQLDocument → List OperationInfo
  | [] => []
  | .op o :: rest => o :: documentOperations rest
  | .other :: rest => documentOperations rest

/-- Modelled from the spec: the external engine's `getOperationAST` utility
(graphql-js, not part of this repository) — "inspect the document for the
operation that would run (using `operationName` if given, else the sole
operation if unambiguous)". A nullish `operationName` selects the unique
operation when the document has exactly one; a string selects the first
operation with that name; otherwise no operation is determined. -/
def getOperationAST (doc : GQLDocument) (operationName : JValue) : Option OperationInfo :=
  match operationName with
  | .undefined | .null =>
    match documentOperations doc with
    | [o] => some o
    | _ => none
  | .str s => (documentOperations doc).find? (fun o => o.name == some s)
  | _ => none

/-- The GET mutation guard condition of the handler:
`doc && doc.operation && doc.operation !== "query"`. -/
def guardFires (document : GQLDocument) (operationName : JValue) : Bool :=
  match getOperationAST document operationName with
  | some op => op.operation != "" && op.operation != "query"
  | none => false

mutual
/-- Value-level effect of `JSON.stringify` on the serialized result: object
fields whose value is `undefined` are omitted, `undefined` array elements
serialize as `null`. -/
def jsonNorm : JValue → JValue
  | .obj fields => .obj (jsonNormFields fields)
  | .arr xs => .arr (jsonNormElems xs)
  | v => v

/-- Field-list part of `jsonNorm`. -/
def jsonNormFields : List (String × JValue) → List (String × JValue)
  | [] => []
  | (_, .undefined) :: rest => jsonNormFields rest
  | (k, v) :: rest => (k, jsonNorm v) :: jsonNormFields rest

/-- Array part of `jsonNorm`. -/
def jsonNormElems : List JValue → List JValue
  | [] => []
  | .undefined :: rest => .null :: jsonNormElems rest
  | v :: rest => jsonNorm v :: jsonNormElems rest
end

/-- The `contextValue` handed to `execute`: either a plain JS value or the raw
incoming request object. -/
inductive ContextVal where
  | val : JValue → ContextVal
  | req : Request → ContextVal

/-- The context choice `localContext || context || request` made by the
handler when building the `execute` arguments. -/
def chooseContext (localContext ctx : JValue) (request : Request) : ContextVal :=
  if localContext.truthy then .val localContext
  else if ctx.truthy then .val ctx
  else .req request

/-- The argument object handed to the `execute` strategy (the schema and the
field/type resolver options are opaque engine inputs, folded into the
strategy function itself). -/
structure ExecuteArgs where
  document : GQLDocument
  variableValues : JValue
  operationName : JValue
  rootValue : JValue
  contextValue : ContextVal

/-- The argument object handed to a configured `extensions` function. -/
structure ExtArgs where
  document : GQLDocument
  «variables» : JValue
  operationName : JValue
  result : JValue
  context : JValue

/-- Handler configuration after defaulting, with the external strategy
functions (`customParseFn`/`customValidateFn`/`customExecuteFn`/
`customFormatErrorFn`, or their engine defaults) and the host capabilities
folded in. The schema and the validation rules are opaque values owned by the
engine and live inside the `validate` and `execute` closures. -/
structure HandlerConfig where
  host : HostEnv
  allowOrigins : Option String
  context : JValue
  pretty : Bool
  rootValue : JValue
  extensions : Option (ExtArgs → Except JValue JValue)
  execute : ExecuteArgs → Except JValue JValue
  parse : JValue → Except JValue GQLDocument
  formatError : JValue → JValue
  validate : Option (GQLDocument → Except JValue (List JValue))

/-- Truthiness of the configured `allowOrigins` value (`if (allowOrigins)`). -/
def originTruthy : Option String → Bool
  | none => false
  | some s => s != ""

/-- The base response headers: `Content-Type: application/json`, plus the CORS
origin header when `allowOrigins` is truthy. -/
def baseHeaders (cfg : HandlerConfig) : List (String × JValue) :=
  ("Content-Type", .str "application/json") ::
    (match cfg.allowOrigins with
     | some o => if o != "" then [("Access-Control-Allow-Origin", .str o)] else []
     | none => [])

/-- JS object spread `{...base, ...extra}` at the level of key lookups: keys of
`extra` override keys of `base`. -/
def spreadHeaders (base extra : List (String × JValue)) : List (String × JValue) :=
  base.filter (fun p => (lookupField extra p.1).isNone) ++ extra

/-- Own enumerable entries contributed by spreading a value into an object
literal: an object contributes its fields, a string its indexed characters, an
array its indexed elements, everything else (including `undefined` and `null`)
nothing. -/
def headerEntries : JValue → List (String × JValue)
  | .obj fields => fields
  | .str s => (s.data.enum).map (fun p => (toString p.1, JValue.str (String.singleton p.2)))
  | .arr xs => (xs.enum).map (fun p => (toString p.1, p.2))
  | _ => []

/-- Body of a handler response: empty (the preflight response) or a JSON
value serialized with `JSON.stringify`. -/
inductive RespBody where
  | empty : RespBody
  | json : JValue → RespBody

/-- The response produced by the handler: status, headers and body. The
`pretty` option only changes JSON indentation, which a value-level body does
not record. -/
structure HandlerResponse where
  status : JValue
  headers : List (String × JValue)
  body : RespBody

/-- The `errors` field of the success envelope:
`result.errors && result.errors.map(formatError)`. -/
def jsErrorsField (fmt : JValue → JValue) (result : JValue) : Except JValue JValue := do
  let errs ← result.getPropE "errors"
  if errs.truthy then
    match errs with
    | .arr xs => pure (.arr (xs.map fmt))
    | _ => .error (typeError "result.errors.map is not a function")
  else pure errs

/-- The success-path response construction: serialize
`{errors, data, extensions}` and choose status 200 when `result.data` is
truthy, 500 otherwise. -/
def formatSuccess (cfg : HandlerConfig) (result extensionsResult : JValue) :
    Except JValue HandlerResponse := do
  let errorsField ← jsErrorsField cfg.formatError result
  let dataField ← result.getPropE "data"
  pure { status := if dataField.truthy then .num 200 else .num 500
         headers := baseHeaders cfg
         body := .json (jsonNorm (.obj [("errors", errorsField), ("data", dataField),
                                        ("extensions", extensionsResult)])) }

/-- The `execute` argument object built by the handler. -/
def mkExecuteArgs (cfg : HandlerConfig) (request : Request) (localContext : JValue)
    (params : ParsedParams) (document : GQLDocument) : ExecuteArgs :=
  { document := document
    variableValues := params.«variables»
    operationName := params.operationName
    rootValue := cfg.rootValue
    contextValue := chooseContext localContext cfg.context request }

/-- The validate step: skipped entirely when no validate strategy is
configured; a non-empty error list raises a 400 failure. -/
def validateStep (cfg : HandlerConfig) (document : GQLDocument) : Except JValue Unit :=
  match cfg.validate with
  | some v => do
    let validationErrors ← v document
    if validationErrors.length > 0 then
      Except.error (.obj [("status", .num 400), ("error", .arr validationErrors)])
    else pure ()
  | none => pure ()

/-- Pipeline tail from the validate step: validate, execute, the optional
extensions call, then the success formatting. -/
def runFromValidate (cfg : HandlerConfig) (request : Request) (localContext : JValue)
    (params : ParsedParams) (document : GQLDocument) : Except JValue HandlerResponse := do
  let _ ← validateStep cfg document
  let result ← cfg.execute (mkExecuteArgs cfg request localContext params document)
  let extensionsResult ←
    match cfg.extensions with
    | some f => f { document := document, «variables» := params.«variables»,
                    operationName := params.operationName, result := result,
                    context := cfg.context }
    | none => pure JValue.undefined
  formatSuccess cfg result extensionsResult

/-- RFC 7230 token characters, the characters allowed in an HTTP header
field name, identified by code point. -/
def isTokenChar (c : Char) : Bool :=
  decide ((48 ≤ c.toNat ∧ c.toNat ≤ 57) ∨ (65 ≤ c.toNat ∧ c.toNat ≤ 90) ∨
    (97 ≤ c.toNat ∧ c.toNat ≤ 122) ∨
    c.toNat ∈ ([33, 35, 36, 37, 38, 39, 42, 43, 45, 46, 94, 95, 96, 124, 126] : List Nat))

/-- HTTP whitespace (tab, LF, CR, space), stripped from header values. -/
def isHTTPWhitespace (c : Char) : Bool :=
  c.toNat == 9 || c.toNat == 10 || c.toNat == 13 || c.toNat == 32

/-- Strip leading and trailing HTTP whitespace. -/
def trimChars (l : List Char) : List Char :=
  ((l.dropWhile isHTTPWhitespace).reverse.dropWhile isHTTPWhitespace).reverse

mutual
/-- JS string conversion, as the platform applies it to header values before
validation: primitives print their usual forms, plain objects print
"[object Object]", arrays join their elements with commas with nullish
elements joining as empty strings. -/
def jsToString : JValue → String
  | .undefined => "undefined"
  | .null => "null"
  | .bool b => if b then "true" else "false"
  | .num n => toString n
  | .str s => s
  | .obj _ => "[object Object]"
  | .arr xs => jsToStringElems xs

/-- Array join for `jsToString`. -/
def jsToStringElems : List JValue → String
  | [] => ""
  | [.undefined] => ""
  | [.null] => ""
  | [v] => jsToString v
  | .undefined :: rest => "," ++ jsToStringElems rest
  | .null :: rest => "," ++ jsToStringElems rest
  | v :: rest => jsToString v ++ "," ++ jsToStringElems rest
end

/-- Validity of a header field name: a non-empty token. -/
def validHeaderName (s : String) : Bool :=
  !s.data.isEmpty && s.data.all isTokenChar

/-- Validity of a header value: after string conversion and whitespace
normalization it contains no NUL, LF or CR. -/
def validHeaderValue (v : JValue) : Bool :=
  (trimChars (jsToString v).data).all
    (fun c => !(c.toNat == 0 || c.toNat == 10 || c.toNat == 13))

/-- Validity of a list of header entries. -/
def headersValid (entries : List (String × JValue)) : Bool :=
  entries.all (fun p => validHeaderName p.1 && validHeaderValue p.2)

/-- Decimal digit test by code point. -/
def isDigitChar (c : Char) : Bool := decide (48 ≤ c.toNat ∧ c.toNat ≤ 57)

/-- Value of a digit string (none when a non-digit occurs). -/
def decValAux (acc : Nat) : List Char → Option Nat
  | [] => some acc
  | c :: rest =>
    if isDigitChar c then decValAux (acc * 10 + (c.toNat - 48)) rest else none

/-- JS ToNumber of a string, for the integer subset the status conversion can
meet: an optionally signed, whitespace-trimmed run of decimal digits; the
empty string is 0; every other form (fractions, exponents, hex) is treated as
not-a-number, which the unsigned-short conversion then maps to 0. -/
def numOfJsString (s : String) : Int :=
  match trimChars s.data with
  | [] => 0
  | c :: rest =>
    if c.toNat == 45 then
      match decValAux 0 rest with
      | some n => -(n : Int)
      | none => 0
    else if c.toNat == 43 then
      match decValAux 0 rest with
      | some n => (n : Int)
      | none => 0
    else
      match decValAux 0 (c :: rest) with
      | some n => (n : Int)
      | none => 0

/-- The WebIDL unsigned-short conversion applied to a response init status:
ToNumber of the value (integers as themselves, booleans 0/1, strings via
`numOfJsString`, arrays via their join, everything else — including objects,
null and undefined — to 0 like NaN), then reduction modulo 2^16. -/
def statusToU16 (v : JValue) : Nat :=
  let n : Int :=
    match v with
    | .num n => n
    | .bool b => if b then 1 else 0
    | .str s => numOfJsString s
    | .arr xs => numOfJsString (jsToStringElems xs)
    | _ => 0
  (((n % 65536) + 65536) % 65536).toNat

/-- The RangeError thrown by the Response constructor for a status outside
200..599. -/
def rangeErrorStatus : JValue :=
  .obj [("name", .str "RangeError"),
        ("message", .str "The status provided is outside the range of 200 to 599.")]

/-- Modelled from the platform interface (the Fetch `Response` constructor,
external to this repository): initializing a response first rejects an init
status whose unsigned-short conversion lies outside 200..599 with a
RangeError, then fills the headers, rejecting an invalid header name or value
with a TypeError. The base entries (`Content-Type: application/json` plus the
configured CORS origin) are fixed, valid configuration and are taken as
given; the entries spread from a thrown value are validated. On success the
response carries the converted status and the merged headers. -/
def mkResponse (status : JValue) (base extra : List (String × JValue)) (body : RespBody) :
    Except JValue HandlerResponse :=
  if statusToU16 status < 200 ∨ 599 < statusToU16 status then
    .error rangeErrorStatus
  else if headersValid extra then
    .ok ⟨.num (statusToU16 status), spreadHeaders base extra, body⟩
  else .error (typeError "Invalid header name or value")

/-- The thrown value of the method check. -/
def methodNotAllowedThrow : JValue :=
  .obj [("headers", .obj [("Allow", .str "OPTIONS, GET, POST")]),
        ("status", .num 405),
        ("error", .str "GraphQL only supports GET and POST requests.")]

/-- The thrown value of the GET mutation guard. -/
def mutationGuardThrow : JValue :=
  .obj [("status", .num 405),
        ("error", .str "Can only perform a mutation operation from a POST request."),
        ("headers", .obj [("Allow", .str "POST")])]

/-- The body of the handler's try block: method check, parameter resolution,
query-presence check, parse (whose throw is re-tagged as a 400), the GET
mutation guard, then the validate/execute/extensions tail. -/
def tryPipeline (cfg : HandlerConfig) (request : Request) (localContext : JValue) :
    Except JValue HandlerResponse :=
  if !(request.method == "POST" || request.method == "GET") then
    .error methodNotAllowedThrow
  else
    match parseParams cfg.host request with
    | .error e => .error e
    | .ok params =>
      if !params.query.truthy then
        .error (.obj [("status", .num 400), ("error", .str "Must provide query string.")])
      else
        match cfg.parse params.query with
        | .error syntaxError => .error (.obj [("status", .num 400),
                                              ("error", .arr [syntaxError])])
        | .ok document =>
          if request.method == "GET" && guardFires document params.operationName then
            .error mutationGuardThrow
          else
            runFromValidate cfg request localContext params document

/-- The catch clause of the handler: destructure the thrown value (a nullish
thrown value makes the destructuring itself throw, escaping the handler),
normalize the payload into an error list, format it, and build the response
through the platform constructor with the carried status (500 when falsy) and
the base headers overridden by the carried headers — the constructor's own
RangeError/TypeError on an invalid status or header escapes the handler
too. -/
def catchClause (cfg : HandlerConfig) (e : JValue) : Except JValue HandlerResponse :=
  match e with
  | .undefined => .error (typeErrorRead "undefined" "status")
  | .null => .error (typeErrorRead "null" "status")
  | _ =>
    let status := e.getProp "status"
    let error := e.getProp "error"
    let headers := e.getProp "headers"
    let reason := jsOr error e
    let errorList : List JValue :=
      match reason with
      | .arr xs => xs
      | .obj fields => [.obj fields]
      | v => [.obj [("message", v)]]
    mkResponse (jsOr status (.num 500)) (baseHeaders cfg) (headerEntries headers)
      (.json (jsonNorm (.obj [("errors", .arr (errorList.map cfg.formatError))])))

/-- Resolution of the try/catch around the pipeline. -/
def wrapCatch (cfg : HandlerConfig) : Except JValue HandlerResponse →
    Except JValue HandlerResponse
  | .ok resp => .ok resp
  | .error e => catchClause cfg e

/-- The async handler returned by `createRequestHandler`, applied to a request
and the optional per-call context. An `.ok` result models a returned
`Response`; an `.error` result models a rejected promise, i.e. a value
escaping the handler. The OPTIONS preflight short-circuit runs before the
try block and before any parameter resolution. -/
def handleRequest (cfg : HandlerConfig) (request : Request) (localContext : JValue) :
    Except JValue HandlerResponse :=
  if request.method == "OPTIONS" && originTruthy cfg.allowOrigins then
    .ok { status := .num 204
          headers := [("Allow", .str "OPTIONS, GET, POST"),
                      ("Access-Control-Allow-Methods", .str "OPTIONS, GET, POST"),
                      ("Access-Control-Allow-Origin", .str (cfg.allowOrigins.getD ""))]
          body := .empty }
  else
    wrapCatch cfg (tryPipeline cfg request localContext)

section Lemmas

lemma exc_bind_ok {ε α β : Type} (a : α) (f : α → Except ε β) :
    (Except.ok a : Except ε α) >>= f = f a := rfl

lemma exc_bind_err {ε α β : Type} (e : ε) (f : α → Except ε β) :
    (Except.error e : Except ε α) >>= f = .error e := rfl

lemma exc_bind_pure {ε α β : Type} (a : α) (f : α → Except ε β) :
    (pure a : Except ε α) >>= f = f a := rfl

lemma jsonNormFields_cons_undefined (k : String) (rest : List (String × JValue)) :
    jsonNormFields ((k, .undefined) :: rest) = jsonNormFields rest := by
  simp [jsonNormFields]

lemma jsonNormFields_cons_of_ne (k : String) (v : JValue) (rest : List (String × JValue))
    (h : v ≠ .undefined) :
    jsonNormFields ((k, v) :: rest) = (k, jsonNorm v) :: jsonNormFields rest := by
  cases v <;> simp_all [jsonNormFields]

lemma lookupField_append (l1 l2 : List (String × JValue)) (k : String) :
    lookupField (l1 ++ l2) k =
      match lookupField l1 k with
      | some v => some v
      | none => lookupField l2 k := by
  induction l1 with
  | nil => simp [lookupField]
  | cons p rest ih =>
    cases p with
    | mk k1 v1 =>
      by_cases hk : k1 = k
      · simp [lookupField, hk]
      · simp [lookupField, hk, ih]

lemma lookupField_filter_of_some (base extra : List (String × JValue)) (k : String)
    (v : JValue) (h : lookupField extra k = some v) :
    lookupField (base.filter (fun p => (lookupField extra p.1).isNone)) k = none := by
  induction base with
  | nil => simp [lookupField]
  | cons p rest ih =>
    cases p with
    | mk k1 v1 =>
      by_cases hk : k1 = k
      · subst hk
        simp only [List.filter_cons]
        rw [show (lookupField extra k1).isNone = false by simp [h]]
        simpa using ih
      · simp only [List.filter_cons]
        cases hfil : (lookupField extra k1).isNone <;> simp [lookupField, hk, ih]

lemma lookupField_filter_of_none (base extra : List (String × JValue)) (k : String)
    (h : lookupField extra k = none) :
    lookupField (base.filter (fun p => (lookupField extra p.1).isNone)) k =
      lookupField base k := by
  induction base with
  | nil => simp
  | cons p rest ih =>
    cases p with
    | mk k1 v1 =>
      by_cases hk : k1 = k
      · subst hk
        simp only [List.filter_cons]
        rw [show (lookupField extra k1).isNone = true by simp [h]]
        simp [lookupField, ih]
      · simp only [List.filter_cons]
        cases hfil : (lookupField extra k1).isNone <;> simp [lookupField, hk, ih]

lemma lookupField_spreadHeaders (base extra : List (String × JValue)) (k : String) :
    lookupField (spreadHeaders base extra) k =
      match lookupField extra k with
      | some v => some v
      | none => lookupField base k := by
  unfold spreadHeaders
  rw [lookupField_append]
  cases h : lookupField extra k with
  | some v =>
    rw [lookupField_filter_of_some base extra k v h]
  | none =>
    rw [lookupField_filter_of_none base extra k h]
    cases h2 : lookupField base k <;> simp_all

end Lemmas

/-- C1: for every execution outcome reaching the response formatter as an
ExecutionResult (an object whose `data` is a map, `null` or absent, and whose
`errors` is an array or absent), the response status is 200 if and only if
`data` is present and non-null (errors alongside data included), 500
otherwise; equivalently, the serialized `data` field of the body is present
and non-null exactly on 200 responses. -/
theorem c1_status_200_iff_data (cfg : HandlerConfig) (result extensionsResult : JValue)
    (rf : List (String × JValue)) (hres : result = .obj rf)
    (hdata : result.getProp "data" = .undefined ∨ result.getProp "data" = .null ∨
      ∃ m, result.getProp "data" = .obj m)
    (herr : result.getProp "errors" = .undefined ∨ ∃ es, result.getProp "errors" = .arr es) :
    ∃ resp bf, formatSuccess cfg result extensionsResult = .ok resp ∧
      resp.body = .json (.obj bf) ∧
      (resp.status = .num 200 ↔ ∃ m, result.getProp "data" = .obj m) ∧
      (resp.status = .num 200 ∨ resp.status = .num 500) ∧
      ((∃ v, lookupField bf "data" = some v ∧ v ≠ .null) ↔ resp.status = .num 200) := by
  subst hres
  have hget : ∀ key, JValue.getPropE (.obj rf) key = .ok (JValue.getProp (.obj rf) key) := by
    intro key; rfl
  rcases herr with herr | ⟨es, herr⟩ <;>
    rcases hdata with hdata | hdata | ⟨m, hdata⟩ <;>
      cases hx : extensionsResult <;>
        simp [formatSuccess, jsErrorsField, hget, herr, hdata, JValue.truthy,
          exc_bind_ok, jsonNorm, jsonNormFields_cons_undefined, jsonNormFields_cons_of_ne,
          jsonNormFields, lookupField]

/-- Sample host: a JSON.parse that rejects everything (never reached in the
runs that use this host) and an empty form parser. -/
def sampleHost : HostEnv :=
  { jsonParse := fun _ => .error (.obj [("message", .str "Unexpected token")]),
    parseQS := fun _ => [] }

/-- Sample handler configuration: no CORS, no extensions, no validate, an
engine whose parser accepts a single anonymous query operation and whose
executor answers with a fixed result. -/
def sampleConfig : HandlerConfig :=
  { host := sampleHost
    allowOrigins := none
    context := .undefined
    pretty := false
    rootValue := .undefined
    extensions := none
    execute := fun _ => .ok (.obj [("data", .obj [("test", .str "Hello World")])])
    parse := fun _ => .ok [.op ⟨none, "query"⟩]
    formatError := id
    validate := none }

/-- Sample execution result carrying data and no errors. -/
def resultW : JValue := .obj [("data", .obj [("test", .str "Hello World")])]

/-- Witness for C1 at a concrete execution result with data present. -/
theorem c1_witness :
    ∃ resp bf, formatSuccess sampleConfig resultW .undefined = .ok resp ∧
      resp.body = .json (.obj bf) ∧
      (resp.status = .num 200 ↔ ∃ m, resultW.getProp "data" = .obj m) ∧
      (resp.status = .num 200 ∨ resp.status = .num 500) ∧
      ((∃ v, lookupField bf "data" = some v ∧ v ≠ .null) ↔ resp.status = .num 200) :=
  c1_status_200_iff_data sampleConfig resultW .undefined
    [("data", .obj [("test", .str "Hello World")])] rfl
    (Or.inr (Or.inr ⟨[("test", .str "Hello World")], rfl⟩)) (Or.inl rfl)

/-- A POST request with no Content-Type header, no URL query parameters and an
empty body. -/
def reqNoCT : Request :=
  { method := "POST", searchParams := [], contentType := none, body := "" }

/-- C2, failing input: on a POST without a Content-Type header,
`parseParams` evaluates `null.includes(...)`, so the handler answers 400
carrying that TypeError instead of the claimed "Must provide query string."
failure — while with a present but unrecognized content type (text/plain) the
claimed behavior does hold. -/
theorem c2_missing_content_type_code_bug :
    handleRequest sampleConfig reqNoCT .undefined =
      .ok { status := .num 400
            headers := [("Content-Type", .str "application/json")]
            body := .json (.obj [("errors", .arr [typeErrorRead "null" "includes"])]) } ∧
    typeErrorRead "null" "includes" ≠ .obj [("message", .str "Must provide query string.")] ∧
    handleRequest sampleConfig { reqNoCT with contentType := some "text/plain" } .undefined =
      .ok { status := .num 400
            headers := [("Content-Type", .str "application/json")]
            body := .json (.obj [("errors",
              .arr [.obj [("message", .str "Must provide query string.")]])]) } := by
  refine ⟨rfl, ?_, rfl⟩
  simp [typeErrorRead, typeError]

lemma mergedVariables_url (env : HostEnv) (u : List (String × String)) (fb : JValue)
    (s : String) (hs : spGet u "variables" = some s) (hne : s ≠ "") :
    mergedVariables env u fb = env.jsonParse s := by
  unfold mergedVariables
  rw [hs]
  simp [hne]

lemma mergeStep_spec (env : HostEnv) (u : List (String × String)) (fb : JValue)
    (p : ParsedParams) (h : mergeStep env u fb = .ok p) :
    (∃ bq, JValue.getPropE fb "query" = .ok bq ∧
      p.query = jsOr (jvOfOptStr (spGet u "query")) bq) ∧
    (∃ bo, JValue.getPropE fb "operationName" = .ok bo ∧
      p.operationName = jsOr (jvOfOptStr (spGet u "operationName")) bo) ∧
    (∀ s, spGet u "variables" = some s → s ≠ "" → env.jsonParse s = .ok p.«variables») := by
  unfold mergeStep at h
  cases hq : JValue.getPropE fb "query" <;> rw [hq] at h
  case error => simp [exc_bind_err] at h
  case ok bq =>
    rw [exc_bind_ok] at h
    cases hv : mergedVariables env u fb <;> rw [hv] at h
    case error => simp [exc_bind_err] at h
    case ok bv =>
      rw [exc_bind_ok] at h
      cases ho : JValue.getPropE fb "operationName" <;> rw [ho] at h
      case error => simp [exc_bind_err] at h
      case ok bo =>
        rw [exc_bind_ok] at h
        have hp : p = ⟨jsOr (jvOfOptStr (spGet u "query")) bq, bv,
            jsOr (jvOfOptStr (spGet u "operationName")) bo⟩ := by
          cases h; rfl
        subst hp
        refine ⟨⟨bq, rfl, rfl⟩, ⟨bo, rfl, rfl⟩, ?_⟩
        intro s hs hne
        rw [mergedVariables_url env u fb s hs hne] at hv
        exact hv

lemma jsOr_str_of_ne (s : String) (b : JValue) (h : s ≠ "") :
    jsOr (.str s) b = .str s := by
  simp [jsOr, JValue.truthy, h]

lemma parseParams_ok_mergeStep (env : HostEnv) (request : Request) (p : ParsedParams)
    (h : parseParams env request = .ok p) :
    ∃ fb, mergeStep env request.searchParams fb = .ok p := by
  unfold parseParams parseParamsRaw at h
  by_cases hm : request.method == "POST"
  · rw [if_pos hm] at h
    cases hct : request.contentType <;> rw [hct] at h <;> dsimp only at h
    · simp at h
    · rename_i ct
      by_cases h1 : strIncludes ct "application/json"
      · rw [if_pos h1] at h
        cases hjp : env.jsonParse request.body <;> rw [hjp] at h
        · simp at h
        · rename_i fb
          cases hms : mergeStep env request.searchParams fb <;>
            simp [hms, Except.mapError] at h
          exact ⟨fb, by rw [hms, h]⟩
      · rw [if_neg h1] at h
        by_cases h2 : strIncludes ct "application/x-www-form-urlencoded"
        · rw [if_pos h2] at h
          cases hfb : formBody env request.body <;> rw [hfb] at h
          · simp [Except.bind, Except.mapError] at h
          · rename_i fb
            cases hms : mergeStep env request.searchParams fb <;>
              simp [Except.bind, hms, Except.mapError] at h
            exact ⟨fb, by rw [hms, h]⟩
        · rw [if_neg h2] at h
          by_cases h3 : strIncludes ct "application/graphql"
          · rw [if_pos h3] at h
            cases hms : mergeStep env request.searchParams
                (.obj [("query", .str request.body)]) <;>
              simp [hms, Except.mapError] at h
            exact ⟨_, by rw [hms, h]⟩
          · rw [if_neg h3] at h
            cases hms : mergeStep env request.searchParams (.obj []) <;>
              simp [hms, Except.mapError] at h
            exact ⟨_, by rw [hms, h]⟩
  · rw [if_neg hm] at h
    cases hms : mergeStep env request.searchParams (.obj []) <;>
      simp [hms, Except.mapError] at h
    exact ⟨_, by rw [hms, h]⟩

/-- Host whose JSON.parse knows the one JSON body used in the C3 runs. -/
def hostC3 : HostEnv :=
  { jsonParse := fun s =>
      if s = "\x7b\"query\":\"fromBody\"\x7d" then .ok (.obj [("query", .str "fromBody")])
      else .error (.obj [("message", .str "Unexpected token")]),
    parseQS := fun _ => [] }

/-- A POST with a JSON body supplying `query`, whose URL supplies `query` with
an empty value. -/
def reqC3 : Request :=
  { method := "POST", searchParams := [("query", "")],
    contentType := some "application/json",
    body := "\x7b\"query\":\"fromBody\"\x7d" }

/-- C3, counterexample: the URL of `reqC3` supplies the parameter `query`
(with the empty value), the body also supplies `query`, yet the merged
parameters take the body value, not the URL value — URL precedence fails for
an empty-string URL value, because the merge uses JS `||`. -/
theorem c3_counterexample :
    spGet reqC3.searchParams "query" = some "" ∧
    parseParams hostC3 reqC3 = .ok ⟨.str "fromBody", .undefined, .undefined⟩ ∧
    JValue.str "fromBody" ≠ JValue.str "" := by
  refine ⟨rfl, rfl, ?_⟩
  simp

/-- C3, amended: the merged parameters take the URL value field by field
whenever that URL value is non-empty (an empty-string URL value instead falls
back to the body value, as the merge uses JS `||`); independently per field,
a body value is still used when the URL does not supply that field; and the
`operationName` handed to `execute` is exactly the merged one, so a non-empty
URL `operationName` names the operation executed. -/
theorem c3_url_precedence_nonempty :
    (∀ env req p, parseParams env req = .ok p →
      (∀ s, spGet req.searchParams "query" = some s → s ≠ "" → p.query = .str s) ∧
      (∀ s, spGet req.searchParams "operationName" = some s → s ≠ "" →
        p.operationName = .str s) ∧
      (∀ s v, spGet req.searchParams "variables" = some s → s ≠ "" →
        env.jsonParse s = .ok v → p.«variables» = v)) ∧
    (∀ env u fb p bq bo, mergeStep env u fb = .ok p →
      (spGet u "query" = none → JValue.getPropE fb "query" = .ok bq → p.query = bq) ∧
      (spGet u "operationName" = none → JValue.getPropE fb "operationName" = .ok bo →
        p.operationName = bo)) ∧
    (∀ cfg req lc p d, (mkExecuteArgs cfg req lc p d).operationName = p.operationName) := by
  refine ⟨?_, ?_, fun _ _ _ _ _ => rfl⟩
  · intro env req p h
    obtain ⟨fb, hms⟩ := parseParams_ok_mergeStep env req p h
    obtain ⟨⟨bq, _, hpq⟩, ⟨bo, _, hpo⟩, hvars⟩ := mergeStep_spec env req.searchParams fb p hms
    refine ⟨?_, ?_, ?_⟩
    · intro s hs hne
      rw [hpq, hs]
      exact jsOr_str_of_ne s bq hne
    · intro s hs hne
      rw [hpo, hs]
      exact jsOr_str_of_ne s bo hne
    · intro s v hs hne hjp
      have := hvars s hs hne
      rw [hjp] at this
      injection this with h2
      exact h2.symm
  · intro env u fb p bq bo hms
    obtain ⟨⟨bq2, hq2, hpq⟩, ⟨bo2, ho2, hpo⟩, _⟩ := mergeStep_spec env u fb p hms
    constructor
    · intro hu hq
      rw [hq] at hq2
      injection hq2 with h2
      rw [hpq, hu, h2]
      rfl
    · intro hu ho
      rw [ho] at ho2
      injection ho2 with h2
      rw [hpo, hu, h2]
      rfl

/-- A GET request supplying all three parameters in the URL, used as the C3
witness input. -/
def reqC3W : Request :=
  { method := "GET",
    searchParams := [("query", "\x7btest\x7d"), ("variables", "null"),
                     ("operationName", "Op")],
    contentType := none, body := "" }

/-- Host for the C3 witness whose JSON.parse decodes the literal `null`. -/
def hostC3W : HostEnv :=
  { jsonParse := fun s =>
      if s = "null" then .ok .null
      else .error (.obj [("message", .str "Unexpected token")]),
    parseQS := fun _ => [] }

/-- Witness for C3 at a concrete request: the non-empty URL values win. -/
theorem c3_witness :
    parseParams hostC3W reqC3W = .ok ⟨.str "\x7btest\x7d", .null, .str "Op"⟩ ∧
    JValue.str "\x7btest\x7d" = .str "\x7btest\x7d" ∧ JValue.str "Op" = .str "Op" :=
  ⟨rfl,
    ((c3_url_precedence_nonempty.1 hostC3W reqC3W ⟨.str "\x7btest\x7d", .null, .str "Op"⟩
      rfl).1 "\x7btest\x7d" rfl (by simp)) ▸ rfl,
    ((c3_url_precedence_nonempty.1 hostC3W reqC3W ⟨.str "\x7btest\x7d", .null, .str "Op"⟩
      rfl).2.1 "Op" rfl (by simp)) ▸ rfl⟩

/-- C4: on a GET request whose parsed document determines an operation (by
`operationName` if given, else the sole unambiguous operation) of kind other
than `query`, the handler fails with status 405, the message "Can only perform
a mutation operation from a POST request." and the extra header
`Allow: POST`; and when no single operation can be determined the guard does
not fire — the pipeline continues into the validate/execute tail. -/
theorem c4_get_mutation_guard :
    (∀ cfg req lc p d op, req.method = "GET" →
      parseParams cfg.host req = .ok p → p.query.truthy = true →
      cfg.parse p.query = .ok d →
      getOperationAST d p.operationName = some op →
      (op.operation = "mutation" ∨ op.operation = "subscription") →
      ∃ resp, handleRequest cfg req lc = .ok resp ∧ resp.status = .num 405 ∧
        lookupField resp.headers "Allow" = some (.str "POST") ∧
        resp.body = .json (jsonNorm (.obj [("errors", .arr [cfg.formatError
          (.obj [("message",
            .str "Can only perform a mutation operation from a POST request.")])])]))) ∧
    (∀ cfg req lc p d, req.method = "GET" →
      parseParams cfg.host req = .ok p → p.query.truthy = true →
      cfg.parse p.query = .ok d →
      getOperationAST d p.operationName = none →
      handleRequest cfg req lc = wrapCatch cfg (runFromValidate cfg req lc p d)) := by
  constructor
  · intro cfg req lc p d op hm hp hq hparse hop hkind
    have hguard : guardFires d p.operationName = true := by
      unfold guardFires
      rw [hop]
      dsimp only
      rcases hkind with h | h <;> rw [h] <;> rfl
    have hhr : handleRequest cfg req lc = catchClause cfg mutationGuardThrow := by
      unfold handleRequest tryPipeline
      rw [hm, hp]
      dsimp only
      rw [hq, hparse]
      dsimp only
      rw [hguard]
      rfl
    refine ⟨_, by rw [hhr]; rfl, rfl, ?_, rfl⟩
    show lookupField (spreadHeaders (baseHeaders cfg) [("Allow", .str "POST")]) "Allow" =
      some (.str "POST")
    rw [lookupField_spreadHeaders]
    rfl
  · intro cfg req lc p d hm hp hq hparse hop
    have hguard : guardFires d p.operationName = false := by
      unfold guardFires
      rw [hop]
    unfold handleRequest tryPipeline
    rw [hm, hp]
    dsimp only
    rw [hq, hparse]
    dsimp only
    rw [hguard]
    rfl

/-- Engine configuration for the C4 witness: the parser yields a document with
one named mutation operation. -/
def cfgC4 : HandlerConfig :=
  { sampleConfig with parse := fun _ => .ok [.op ⟨some "TestMutation", "mutation"⟩] }

/-- GET request carrying a mutation query, the C4 witness input. -/
def reqC4 : Request :=
  { method := "GET",
    searchParams := [("query", "mutation TestMutation \x7b writeTest \x7b test \x7d \x7d")],
    contentType := none, body := "" }

/-- Witness for C4: the concrete GET mutation request is answered 405 with
`Allow: POST`. -/
theorem c4_witness :
    ∃ resp, handleRequest cfgC4 reqC4 .undefined = .ok resp ∧ resp.status = .num 405 ∧
      lookupField resp.headers "Allow" = some (.str "POST") ∧
      resp.body = .json (jsonNorm (.obj [("errors", .arr [cfgC4.formatError
        (.obj [("message",
          .str "Can only perform a mutation operation from a POST request.")])])])) :=
  c4_get_mutation_guard.1 cfgC4 reqC4 .undefined
    ⟨.str "mutation TestMutation \x7b writeTest \x7b test \x7d \x7d", .undefined, .undefined⟩
    [.op ⟨some "TestMutation", "mutation"⟩] ⟨some "TestMutation", "mutation"⟩
    rfl rfl rfl rfl rfl (Or.inl rfl)

/-- A plain GET query request used for the C5 counterexample. -/
def reqC5 : Request :=
  { method := "GET", searchParams := [("query", "\x7btest\x7d")],
    contentType := none, body := "" }

/-- Configuration with the empty string configured as `allowOrigins`. -/
def cfgC6 : HandlerConfig :=
  { sampleConfig with allowOrigins := some "" }

/-- An OPTIONS request with nothing else on it. -/
def reqOPT : Request :=
  { method := "OPTIONS", searchParams := [], contentType := none, body := "" }

/-- C6, counterexample: with an allowOrigins value configured — the empty
string — an OPTIONS request is not answered by the 204 preflight but falls
through to the 405 method-check failure, because the preflight test uses JS
truthiness of the configured value. -/
theorem c6_counterexample :
    cfgC6.allowOrigins = some "" ∧
    handleRequest cfgC6 reqOPT .undefined = .ok
      { status := .num 405
        headers := [("Content-Type", .str "application/json"),
                    ("Allow", .str "OPTIONS, GET, POST")]
        body := .json (.obj [("errors", .arr [.obj [("message",
          .str "GraphQL only supports GET and POST requests.")]])]) } ∧
    JValue.num 405 ≠ JValue.num 204 := by
  refine ⟨rfl, rfl, ?_⟩
  simp

/-- C6, amended: an OPTIONS request is answered immediately — before any
parameter resolution or engine call, whatever the strategies do — with
status 204, empty body and exactly the three preflight headers, whenever a
non-empty allowOrigins string is configured; with no configured origin (or
the falsy empty string), OPTIONS falls through to the 405 method-check
failure. -/
theorem c6_preflight :
    (∀ cfg req lc o, req.method = "OPTIONS" → cfg.allowOrigins = some o → o ≠ "" →
      handleRequest cfg req lc = .ok
        { status := .num 204
          headers := [("Allow", .str "OPTIONS, GET, POST"),
                      ("Access-Control-Allow-Methods", .str "OPTIONS, GET, POST"),
                      ("Access-Control-Allow-Origin", .str o)]
          body := .empty }) ∧
    (∀ cfg req lc, req.method = "OPTIONS" →
      (cfg.allowOrigins = none ∨ cfg.allowOrigins = some "") →
      ∃ resp, handleRequest cfg req lc = .ok resp ∧ resp.status = .num 405 ∧
        lookupField resp.headers "Allow" = some (.str "OPTIONS, GET, POST") ∧
        resp.body = .json (jsonNorm (.obj [("errors", .arr [cfg.formatError
          (.obj [("message",
            .str "GraphQL only supports GET and POST requests.")])])]))) := by
  constructor
  · intro cfg req lc o hm ho hne
    have ht : originTruthy (some o) = true := by simp [originTruthy, hne]
    unfold handleRequest
    rw [hm, ho, ht]
    rfl
  · intro cfg req lc hm hor
    have hfalse : originTruthy cfg.allowOrigins = false := by
      rcases hor with h | h <;> simp [h, originTruthy]
    have hhr : handleRequest cfg req lc = catchClause cfg methodNotAllowedThrow := by
      unfold handleRequest tryPipeline
      rw [hm, hfalse]
      rfl
    refine ⟨_, hhr, rfl, ?_, rfl⟩
    show lookupField (spreadHeaders (baseHeaders cfg)
      [("Allow", .str "OPTIONS, GET, POST")]) "Allow" = some (.str "OPTIONS, GET, POST")
    rw [lookupField_spreadHeaders]
    rfl

/-- Configuration with `allowOrigins` set to the wildcard origin. -/
def cfgC6W : HandlerConfig :=
  { sampleConfig with allowOrigins := some "*" }

/-- Witness for C6: the concrete OPTIONS preflight against a configured `*`
origin. -/
theorem c6_witness :
    handleRequest cfgC6W reqOPT .undefined = .ok
      { status := .num 204
        headers := [("Allow", .str "OPTIONS, GET, POST"),
                    ("Access-Control-Allow-Methods", .str "OPTIONS, GET, POST"),
                    ("Access-Control-Allow-Origin", .str "*")]
        body := .empty } :=
  c6_preflight.1 cfgC6W reqOPT .undefined "*" rfl rfl (by simp)

lemma lookup_jsonNormFields_skip (k key : String) (v : JValue)
    (tail : List (String × JValue)) (hk : k ≠ key) :
    lookupField (jsonNormFields ((k, v) :: tail)) key =
      lookupField (jsonNormFields tail) key := by
  by_cases hv : v = JValue.undefined
  · subst hv
    rw [jsonNormFields_cons_undefined]
  · rw [jsonNormFields_cons_of_ne _ _ _ hv]
    simp [lookupField, hk]

lemma formatSuccess_ok (cfg : HandlerConfig) (result ext : JValue)
    (rf : List (String × JValue)) (hres : result = .obj rf)
    (herrs : result.getProp "errors" = .undefined ∨ ∃ es, result.getProp "errors" = .arr es) :
    ∃ ef, jsErrorsField cfg.formatError result = .ok ef ∧
      (ef = .undefined ∨ ∃ es2, ef = .arr es2) ∧
      formatSuccess cfg result ext = .ok
        { status := if (result.getProp "data").truthy then .num 200 else .num 500
          headers := baseHeaders cfg
          body := .json (jsonNorm (.obj [("errors", ef), ("data", result.getProp "data"),
                                         ("extensions", ext)])) } := by
  subst hres
  rcases herrs with h | ⟨es, h⟩
  · have he : jsErrorsField cfg.formatError (.obj rf) = .ok .undefined := by
      unfold jsErrorsField
      rw [show JValue.getPropE (.obj rf) "errors" =
        .ok ((JValue.obj rf).getProp "errors") from rfl, h]
      rfl
    refine ⟨.undefined, he, Or.inl rfl, ?_⟩
    unfold formatSuccess
    rw [he, exc_bind_ok]
    rfl
  · have he : jsErrorsField cfg.formatError (.obj rf) =
        .ok (.arr (es.map cfg.formatError)) := by
      unfold jsErrorsField
      rw [show JValue.getPropE (.obj rf) "errors" =
        .ok ((JValue.obj rf).getProp "errors") from rfl, h]
      rfl
    refine ⟨_, he, Or.inr ⟨_, rfl⟩, ?_⟩
    unfold formatSuccess
    rw [he, exc_bind_ok]
    rfl

/-- Engine configuration whose extensions function resolves to the plain
string "hello". -/
def cfgC7 : HandlerConfig :=
  { sampleConfig with extensions := some (fun _ => .ok (.str "hello")) }

/-- C7, counterexample: when the configured extensions function resolves to
the string "hello" — not an object — the serialized envelope still carries an
`extensions` field with that string; the value is not ignored and the key is
not omitted. -/
theorem c7_counterexample :
    handleRequest cfgC7 reqC5 .undefined = .ok
      { status := .num 200
        headers := [("Content-Type", .str "application/json")]
        body := .json (.obj [("data", .obj [("test", .str "Hello World")]),
                             ("extensions", .str "hello")]) } ∧
    lookupField [("data", .obj [("test", .str "Hello World")]),
                 ("extensions", .str "hello")] "extensions" = some (.str "hello") ∧
    some (JValue.str "hello") ≠ none := by
  refine ⟨rfl, rfl, ?_⟩
  simp

/-- C7, amended: on every run that reaches a successful execute — POST or
guard-passing GET, with the validate step passing when configured — the
resolved value of a configured extensions function becomes the `extensions`
field of the envelope whenever it is defined: only an `undefined` resolved
value is omitted (dropped by JSON serialization), while any other value —
object or not — is serialized as the `extensions` field. -/
theorem c7_extensions_field (cfg : HandlerConfig) (req : Request) (lc : JValue)
    (p : ParsedParams) (d : GQLDocument) (result v : JValue)
    (f : ExtArgs → Except JValue JValue) (rf : List (String × JValue))
    (hmethod : req.method = "POST" ∨ req.method = "GET")
    (hguard : req.method = "GET" → guardFires d p.operationName = false)
    (hp : parseParams cfg.host req = .ok p)
    (hq : p.query.truthy = true)
    (hparse : cfg.parse p.query = .ok d)
    (hval : validateStep cfg d = .ok ())
    (hexec : cfg.execute (mkExecuteArgs cfg req lc p d) = .ok result)
    (hext : cfg.extensions = some f)
    (hf : f ⟨d, p.«variables», p.operationName, result, cfg.context⟩ = .ok v)
    (hres : result = .obj rf)
    (herrs : result.getProp "errors" = .undefined ∨ ∃ es, result.getProp "errors" = .arr es) :
    ∃ resp bf, handleRequest cfg req lc = .ok resp ∧ resp.body = .json (.obj bf) ∧
      lookupField bf "extensions" = (if v = .undefined then none else some (jsonNorm v)) := by
  obtain ⟨ef, hef, hefwf, hfmt⟩ := formatSuccess_ok cfg result v rf hres herrs
  have hhr : handleRequest cfg req lc = wrapCatch cfg (formatSuccess cfg result v) := by
    rcases hmethod with hm | hm
    · unfold handleRequest tryPipeline runFromValidate
      rw [hm, hp]
      try dsimp only
      rw [hq, hparse]
      try dsimp only
      rw [hval]
      simp only [exc_bind_pure, exc_bind_ok]
      rw [hexec]
      simp only [exc_bind_pure, exc_bind_ok]
      rw [hext]
      try dsimp only
      rw [hf]
      simp only [exc_bind_ok]
      rfl
    · have hgf := hguard hm
      unfold handleRequest tryPipeline runFromValidate
      rw [hm, hp]
      try dsimp only
      rw [hq, hparse]
      try dsimp only
      rw [hgf]
      try dsimp only
      rw [hval]
      simp only [exc_bind_pure, exc_bind_ok]
      rw [hexec]
      simp only [exc_bind_pure, exc_bind_ok]
      rw [hext]
      try dsimp only
      rw [hf]
      simp only [exc_bind_ok]
      rfl
  rw [hfmt] at hhr
  refine ⟨_, _, hhr, rfl, ?_⟩
  show lookupField (jsonNormFields [("errors", ef), ("data", result.getProp "data"),
    ("extensions", v)]) "extensions" = _
  rw [lookup_jsonNormFields_skip _ _ _ _ (by simp),
      lookup_jsonNormFields_skip _ _ _ _ (by simp)]
  by_cases hv : v = JValue.undefined
  · subst hv
    rw [jsonNormFields_cons_undefined]
    simp [jsonNormFields, lookupField]
  · rw [jsonNormFields_cons_of_ne _ _ _ hv]
    simp [jsonNormFields, lookupField, hv]

/-- POST request with an unrecognized content type and a URL query, the C7
witness input. -/
def reqC7 : Request :=
  { method := "POST", searchParams := [("query", "\x7btest\x7d")],
    contentType := some "text/plain", body := "" }

/-- Engine configuration whose extensions function resolves to an object and
whose validate strategy is configured (finding no errors), like the non-lean
handler. -/
def cfgC7W : HandlerConfig :=
  { sampleConfig with
    extensions := some (fun _ => .ok (.obj [("took", .num 7)]))
    validate := some (fun _ => .ok []) }

/-- Witness for C7: a concrete run with validate configured and passing,
whose extensions function resolves to an object, which becomes the
envelope's `extensions` field. -/
theorem c7_witness :
    ∃ resp bf, handleRequest cfgC7W reqC7 .undefined = .ok resp ∧
      resp.body = .json (.obj bf) ∧
      lookupField bf "extensions" =
        (if JValue.obj [("took", .num 7)] = JValue.undefined then none
         else some (jsonNorm (.obj [("took", .num 7)]))) :=
  c7_extensions_field cfgC7W reqC7 .undefined ⟨.str "\x7btest\x7d", .undefined, .undefined⟩
    [.op ⟨none, "query"⟩] (.obj [("data", .obj [("test", .str "Hello World")])])
    (.obj [("took", .num 7)]) (fun _ => .ok (.obj [("took", .num 7)]))
    [("data", .obj [("test", .str "Hello World")])]
    (Or.inl rfl) (fun h => absurd h (by decide)) rfl rfl rfl rfl rfl rfl rfl rfl (Or.inl rfl)

/-- Observation helper for the context handed to execute: the plain value, or
a marker for the raw request object. -/
def ctxToJ : ContextVal → JValue
  | .val v => v
  | .req _ => .str "rawRequest"

/-- Configuration with a fixed config context whose execute strategy reports
the contextValue it received inside the response data. -/
def cfgC8 : HandlerConfig :=
  { sampleConfig with
    context := .str "fromConfig"
    execute := fun args => .ok (.obj [("data", .obj [("ctx", ctxToJ args.contextValue)])]) }

/-- C8, counterexample: the per-call context `false` is supplied, yet execute
receives the configured context instead — the choice is by JS truthiness
(`localContext || context || request`), not by mere presence of the per-call
argument. -/
theorem c8_counterexample :
    handleRequest cfgC8 reqC5 (.bool false) = .ok
      { status := .num 200
        headers := [("Content-Type", .str "application/json")]
        body := .json (.obj [("data", .obj [("ctx", .str "fromConfig")])]) } ∧
    JValue.str "fromConfig" ≠ JValue.bool false := by
  refine ⟨rfl, ?_⟩
  simp

/-- C8, amended: the `contextValue` handed to execute is exactly one of three
values, chosen by truthiness: the per-call context when truthy, else the
configured context when truthy, else the raw incoming request object (a
falsy supplied per-call context — `false`, `0`, `""`, `null`, `undefined` —
falls through). -/
theorem c8_context_precedence (cfg : HandlerConfig) (req : Request) (lc : JValue)
    (p : ParsedParams) (d : GQLDocument) :
    ((mkExecuteArgs cfg req lc p d).contextValue = chooseContext lc cfg.context req) ∧
    (lc.truthy = true → (mkExecuteArgs cfg req lc p d).contextValue = .val lc) ∧
    (lc.truthy = false → cfg.context.truthy = true →
      (mkExecuteArgs cfg req lc p d).contextValue = .val cfg.context) ∧
    (lc.truthy = false → cfg.context.truthy = false →
      (mkExecuteArgs cfg req lc p d).contextValue = .req req) := by
  refine ⟨rfl, ?_, ?_, ?_⟩
  · intro h1
    simp [mkExecuteArgs, chooseContext, h1]
  · intro h1 h2
    simp [mkExecuteArgs, chooseContext, h1, h2]
  · intro h1 h2
    simp [mkExecuteArgs, chooseContext, h1, h2]

/-- Witness for C8: a truthy per-call context is the one handed to execute. -/
theorem c8_witness :
    (JValue.str "local").truthy = true ∧
    (mkExecuteArgs cfgC8 reqC5 (.str "local") ⟨.str "\x7btest\x7d", .undefined, .undefined⟩
      [.op ⟨none, "query"⟩]).contextValue = .val (.str "local") :=
  ⟨rfl, (c8_context_precedence cfgC8 reqC5 (.str "local")
    ⟨.str "\x7btest\x7d", .undefined, .undefined⟩ [.op ⟨none, "query"⟩]).2.1 rfl⟩

lemma charsHasPre_iff (pre hay : List Char) :
    charsHasPre hay pre = true ↔ ∃ t, hay = pre ++ t := by
  induction pre generalizing hay with
  | nil => simp [charsHasPre]
  | cons d ds ih =>
    cases hay with
    | nil =>
      simp [charsHasPre]
    | cons c cs =>
      simp only [charsHasPre, Bool.and_eq_true, beq_iff_eq, ih]
      constructor
      · rintro ⟨hcd, t, ht⟩
        exact ⟨t, by rw [hcd, ht]; rfl⟩
      · rintro ⟨t, ht⟩
        injection ht with h1 h2
        exact ⟨h1, t, h2⟩

lemma charsIncludes_iff (hay needle : List Char) :
    charsIncludes hay needle = true ↔ ∃ p q, hay = p ++ needle ++ q := by
  induction hay with
  | nil =>
    simp only [charsIncludes, charsHasPre_iff]
    constructor
    · rintro ⟨t, ht⟩
      rcases List.append_eq_nil.mp ht.symm with ⟨h1, h2⟩
      exact ⟨[], [], by rw [h1]; rfl⟩
    · rintro ⟨p, q, hp⟩
      rcases List.append_eq_nil.mp hp.symm with ⟨h1, h2⟩
      rcases List.append_eq_nil.mp h1 with ⟨h3, h4⟩
      exact ⟨[], by rw [h4]; rfl⟩
  | cons c cs ih =>
    simp only [charsIncludes, Bool.or_eq_true, charsHasPre_iff, ih]
    constructor
    · rintro (⟨t, ht⟩ | ⟨p, q, hpq⟩)
      · exact ⟨[], t, by simpa using ht⟩
      · exact ⟨c :: p, q, by rw [hpq]; rfl⟩
    · rintro ⟨p, q, hpq⟩
      cases p with
      | nil => exact Or.inl ⟨q, by simpa using hpq⟩
      | cons x xs =>
        injection hpq with h1 h2
        exact Or.inr ⟨xs, q, h2⟩

/-- C9: Content-Type recognition is by substring containment
(`strIncludes s sub` holds exactly when `sub` occurs inside `s`), and a POST
whose content type contains one of the recognized strings is processed
exactly as if the header were that string itself, with the json check taking
priority over the form-urlencoded check, which takes priority over the
graphql check. -/
theorem c9_content_type_substring :
    (∀ s sub, strIncludes s sub = true ↔ ∃ p q, s.data = p ++ sub.data ++ q) ∧
    (∀ env req ct, req.method = "POST" → req.contentType = some ct →
      strIncludes ct "application/json" = true →
      parseParamsRaw env req =
        parseParamsRaw env { req with contentType := some "application/json" }) ∧
    (∀ env req ct, req.method = "POST" → req.contentType = some ct →
      strIncludes ct "application/json" = false →
      strIncludes ct "application/x-www-form-urlencoded" = true →
      parseParamsRaw env req =
        parseParamsRaw env
          { req with contentType := some "application/x-www-form-urlencoded" }) ∧
    (∀ env req ct, req.method = "POST" → req.contentType = some ct →
      strIncludes ct "application/json" = false →
      strIncludes ct "application/x-www-form-urlencoded" = false →
      strIncludes ct "application/graphql" = true →
      parseParamsRaw env req =
        parseParamsRaw env { req with contentType := some "application/graphql" }) := by
  refine ⟨fun s sub => charsIncludes_iff s.data sub.data, ?_, ?_, ?_⟩
  · intro env req ct hm hct h1
    unfold parseParamsRaw
    rw [hm, hct]
    dsimp only
    rw [h1]
    rfl
  · intro env req ct hm hct h1 h2
    unfold parseParamsRaw
    rw [hm, hct]
    dsimp only
    rw [h1, h2]
    rfl
  · intro env req ct hm hct h1 h2 h3
    unfold parseParamsRaw
    rw [hm, hct]
    dsimp only
    rw [h1, h2, h3]
    rfl

/-- POST request whose content type carries a charset suffix, the C9 witness
input. -/
def reqC9 : Request :=
  { method := "POST", searchParams := [],
    contentType := some "application/json; charset=utf-8", body := "null" }

/-- Witness for C9: a json content type with a charset suffix is recognized
by containment and parsed exactly like the plain `application/json` header. -/
theorem c9_witness :
    strIncludes "application/json; charset=utf-8" "application/json" = true ∧
    parseParamsRaw hostC3W reqC9 =
      parseParamsRaw hostC3W { reqC9 with contentType := some "application/json" } :=
  ⟨rfl, c9_content_type_substring.2.1 hostC3W reqC9 "application/json; charset=utf-8"
    rfl rfl rfl⟩

/-- C10: for every request whose method is not POST, parameter resolution
leaves the body stream unconsumed, its outcome is unchanged under any change
of Content-Type header and body content, and the parameters are exactly the
URL-only merge (the body contributes the empty object). -/
theorem c10_non_post_ignores_body (env : HostEnv) (m : String)
    (sp : List (String × String)) (ct : Option String) (b : String)
    (ct2 : Option String) (b2 : String) (hne : m ≠ "POST") :
    bodyConsumed env ⟨m, sp, ct, b⟩ = false ∧
    parseParamsRaw env ⟨m, sp, ct, b⟩ = parseParamsRaw env ⟨m, sp, ct2, b2⟩ ∧
    parseParams env ⟨m, sp, ct, b⟩ = (mergeStep env sp (.obj [])).mapError tagParseErr := by
  have hm : (m == "POST") = false := by
    simp [hne]
  refine ⟨?_, ?_, ?_⟩
  · unfold bodyConsumed parseParamsRaw
    dsimp only
    rw [hm]
    rfl
  · unfold parseParamsRaw
    dsimp only
    rw [hm]
    rfl
  · unfold parseParams parseParamsRaw
    dsimp only
    rw [hm]
    rfl

/-- Witness for C10: a GET request carrying a JSON content type and a body is
resolved without consuming the body, identically to the same request with no
content type and an empty body. -/
theorem c10_witness :
    bodyConsumed sampleHost ⟨"GET", [("query", "\x7btest\x7d")],
      some "application/json", "garbage"⟩ = false ∧
    parseParamsRaw sampleHost ⟨"GET", [("query", "\x7btest\x7d")],
      some "application/json", "garbage"⟩ =
      parseParamsRaw sampleHost ⟨"GET", [("query", "\x7btest\x7d")], none, ""⟩ ∧
    parseParams sampleHost ⟨"GET", [("query", "\x7btest\x7d")],
      some "application/json", "garbage"⟩ =
      (mergeStep sampleHost [("query", "\x7btest\x7d")] (.obj [])).mapError tagParseErr :=
  c10_non_post_ignores_body sampleHost "GET" [("query", "\x7btest\x7d")]
    (some "application/json") "garbage" none "" (by decide)

end Ersa
